import Mathlib

/-!
Shallow embedding of `src/index.js` (an Express HTTP relay over an Invidious
upstream instance) and proofs about its data-shaping behaviour.

The source file contains two versions of the same program.  Version 1 has a
hard-coded upstream origin and a JSON-API based search handler; version 2
reads the origin from the environment and scrapes markup for search.  Both
versions share `getText`, `getAttr`, `getAbsoluteUrl` and the popular, video,
comments and health handlers verbatim, so those are embedded once.

The cheerio markup parser and the axios HTTP client are external
collaborators: a fetched document is embedded as the record of values the
source's fixed selector queries would produce (one `Option String` per
selector/attribute, `none` meaning the element or attribute is absent), and
the awaited network call is embedded as an `Except String` value whose
`error` case models a rejected promise (network error, non-2xx status or an
unparseable body).  All JavaScript string operations used by the source
(`split`, `startsWith`, `includes`, `replace`, `trim`, template literals)
are re-implemented below on `List Char` with structural recursion so that
every definition evaluates inside the kernel.
-/

namespace JpRelay

/-- JSON values as serialized by `res.json`.  Object fields are an ordered
association list; a JavaScript `undefined` property is dropped by
`JSON.stringify`, so absent upstream fields simply do not appear. -/
inductive Json where
  | null : Json
  | str (s : String) : Json
  | num (n : Int) : Json
  | arr (items : List Json) : Json
  | obj (fields : List (String × Json)) : Json

/-- View a character list as a `String`. -/
def ofChars (l : List Char) : String := String.mk l

/-- Boolean prefix test on character lists (JavaScript `String.startsWith`). -/
def prefixB : List Char → List Char → Bool
  | [], _ => true
  | _ :: _, [] => false
  | c :: cs, d :: ds => c == d && prefixB cs ds

/-- JavaScript `s.startsWith(pre)`. -/
def startsWithJS (s pre : String) : Bool := prefixB pre.data s.data

/-- Boolean substring test (JavaScript `String.includes`). -/
def containsL : List Char → List Char → Bool
  | [], sub => prefixB sub []
  | l@(_ :: t), sub => prefixB sub l || containsL t sub

/-- JavaScript `s.includes(sub)`. -/
def containsSubJS (s sub : String) : Bool := containsL s.data sub.data

/-- The characters after the first occurrence of `pat`, or `none` when `pat`
does not occur.  Together with `upTo` this computes `s.split(pat)[1]`. -/
def afterFirst (pat : List Char) : List Char → Option (List Char)
  | [] => if pat.isEmpty then some [] else none
  | c :: t =>
    if prefixB pat (c :: t) then some (List.drop pat.length (c :: t))
    else afterFirst pat t

/-- The characters before the next occurrence of `pat`. -/
def upTo (pat : List Char) : List Char → List Char
  | [] => []
  | c :: t => if prefixB pat (c :: t) then [] else c :: upTo pat t

/-- JavaScript `s.split(pat)[1]`: the segment between the first and second
occurrence of `pat` (up to the end when there is no second occurrence);
`undefined` (here `none`) when `pat` does not occur at all. -/
def splitIndexOne (s pat : String) : Option String :=
  (afterFirst pat.data s.data).map (fun rest => ofChars (upTo pat.data rest))

/-- Replace the first occurrence of `pat` in `l` by `repl`
(JavaScript `String.replace` with a plain-string pattern). -/
def replaceFirstL (pat repl : List Char) : List Char → List Char
  | [] => if prefixB pat [] then repl else []
  | c :: t =>
    if prefixB pat (c :: t) then repl ++ List.drop pat.length (c :: t)
    else c :: replaceFirstL pat repl t

/-- JavaScript `s.replace(pat, repl)` for a plain-string pattern. -/
def replaceFirst (s pat repl : String) : String :=
  ofChars (replaceFirstL pat.data repl.data s.data)

/-- Drop whitespace from both ends of a character list. -/
def trimL (l : List Char) : List Char :=
  ((l.dropWhile Char.isWhitespace).reverse.dropWhile Char.isWhitespace).reverse

/-- JavaScript `s.trim()` (whitespace modelled by `Char.isWhitespace`). -/
def trimJS (s : String) : String := ofChars (trimL s.data)

/-- JavaScript truthiness of a possibly-absent string: `null`, `undefined`
and the empty string are falsy. -/
def strTruthy : Option String → Bool
  | none => false
  | some s => !(s == "")

/-- JavaScript `a || b` on possibly-absent strings. -/
def jsOr (a b : Option String) : Option String := if strTruthy a then a else b

/-- `getText($, selector)` from `src/index.js`: `null` when the selector
matches nothing, otherwise the element text trimmed.  The cheerio query
itself is abstracted: `raw` is the raw text of the matched element. -/
def getText (raw : Option String) : Option String := raw.map trimJS

/-- `getAttr($, selector, attr)` from `src/index.js`: `null` when the
selector matches nothing, the attribute value (or `none` when the attribute
is absent) otherwise.  The cheerio query is abstracted: `attrVal` is the
attribute value of the matched element. -/
def getAttr (attrVal : Option String) : Option String := attrVal

/-- `path.startsWith('http://') || path.startsWith('https://')`. -/
def hasHttpScheme (p : String) : Bool :=
  startsWithJS p "http://" || startsWithJS p "https://"

/-- `getAbsoluteUrl` from `src/index.js` (identical in both versions),
parameterized by the `INVIDIOUS_INSTANCE` value `inst`:
falsy input gives `null`; an input starting with `http://` or `https://` is
returned unchanged; anything else is prefixed with the instance origin,
inserting a slash exactly when the path does not start with one. -/
def getAbsoluteUrl (inst : String) (path : Option String) : Option String :=
  match path with
  | none => none
  | some p =>
    if p = "" then none
    else if hasHttpScheme p then some p
    else some (inst ++ (if startsWithJS p "/" then "" else "/") ++ p)

/-- `INVIDIOUS_INSTANCE` in version 1 (line 10): the literal
`'https://lekker.gay'`; the environment variable is never read, although the
comment right above says it can be overridden by one. -/
def INVIDIOUS_INSTANCE_v1 (_env : Option String) : String := "https://lekker.gay"

/-- `INVIDIOUS_INSTANCE` in version 2 (line 224):
`process.env.INVIDIOUS_INSTANCE || 'https://lekker.gay'` (an unset or empty
variable falls back to the default). -/
def INVIDIOUS_INSTANCE_v2 (env : Option String) : String :=
  match env with
  | none => "https://lekker.gay"
  | some s => if s = "" then "https://lekker.gay" else s

/-- `PORT` (both versions): `process.env.PORT || 3000`; the default is the
number `3000`, an env value is kept as the string it is. -/
def PORT (env : Option String) : Nat ⊕ String :=
  match env with
  | none => Sum.inl 3000
  | some s => if s = "" then Sum.inl 3000 else Sum.inr s

/-- An HTTP response: the status set by `res.status` and the JSON body. -/
structure Response where
  status : Nat
  body : Json

/-- The generic error payload every catch block sends:
`res.status(500).json` of an object with a single `error` message. -/
def errorResponse (msg : String) : Response :=
  ⟨500, Json.obj [("error", Json.str msg)]⟩

/-- The 400 payload of `/api/search` when `q` is falsy (both versions). -/
def q400Response : Response :=
  ⟨400, Json.obj [("error", Json.str "Query parameter \"q\" is required.")]⟩

/-- Render a JavaScript string-or-null as JSON. -/
def optStr : Option String → Json
  | none => Json.null
  | some s => Json.str s

/-- One `.pure-g.loop > .pure-u-1` list element, as seen by the fixed
selector set of the popular and (version 2) search handlers.  Each field is
the value the corresponding cheerio query produces: `h3aHref` is the `href`
attribute of `h3 a`, the `Raw` fields are the untrimmed element texts,
`none` meaning the element or attribute is absent. -/
structure VideoElement where
  h3aHref : Option String
  h3aTextRaw : Option String
  imgSrc : Option String
  channelNameRaw : Option String
  viewsStatRaw : Option String
  agoStatRaw : Option String

/-- `getAttr($(element).find('h3 a'), 'href')?.split('v=')[1]`. -/
def elementVideoId (e : VideoElement) : Option String :=
  match getAttr e.h3aHref with
  | none => none
  | some h => splitIndexOne h "v="

/-- The body of the `.each` loop shared by `/api/popular` and the version-2
`/api/search`: skip the element when the extracted videoId is falsy,
otherwise push the VideoSummary object. -/
def mkVideoSummary (inst : String) (e : VideoElement) : Option Json :=
  match elementVideoId e with
  | none => none
  | some vid =>
    if vid = "" then none
    else some (Json.obj [
      ("title", optStr (getText e.h3aTextRaw)),
      ("videoId", Json.str vid),
      ("thumbnail", optStr (getAttr e.imgSrc)),
      ("author", optStr (getText e.channelNameRaw)),
      ("views", optStr (getText e.viewsStatRaw)),
      ("uploadedAt", optStr (getText e.agoStatRaw)),
      ("url", optStr (getAbsoluteUrl inst (getAttr e.h3aHref)))])

/-- The `popularVideos` array built by `/api/popular`. -/
def extractPopular (inst : String) (doc : List VideoElement) : List Json :=
  doc.filterMap (mkVideoSummary inst)

/-- The `searchResults` array built by the version-2 (markup) `/api/search`;
its loop body is identical to the popular one. -/
def extractSearchMarkup (inst : String) (doc : List VideoElement) : List Json :=
  doc.filterMap (mkVideoSummary inst)

/-- One `.comment-wrapper` element of the comments page. -/
structure CommentElement where
  authorRaw : Option String
  contentRaw : Option String
  timeRaw : Option String
  likesRaw : Option String

/-- The loop body of `/api/comments/:videoId`: every wrapper is pushed,
there is no guard and no videoId field. -/
def mkComment (e : CommentElement) : Json :=
  Json.obj [
    ("author", optStr (getText e.authorRaw)),
    ("text", optStr (getText e.contentRaw)),
    ("time", optStr (getText e.timeRaw)),
    ("likes", optStr (getText e.likesRaw))]

/-- The `comments` array built by `/api/comments/:videoId`. -/
def extractComments (doc : List CommentElement) : List Json :=
  doc.map mkComment

/-- One `a.pure-button.pure-button-primary` anchor of the watch page.  The
anchor itself is part of the matched collection, so its text is always
present (possibly empty); the `href` attribute may be absent. -/
structure AnchorElement where
  href : Option String
  textRaw : String

/-- The loop body of the formats extraction in `/api/video/:videoId`:
`if (href && text && text.includes('Download'))` push
`format: text.replace('Download ', '')` and `url: getAbsoluteUrl(href)`. -/
def mkFormat (inst : String) (a : AnchorElement) : Option Json :=
  match getAttr a.href with
  | none => none
  | some h =>
    if h = "" then none
    else
      let text := trimJS a.textRaw
      if text = "" then none
      else if containsSubJS text "Download" then
        some (Json.obj [
          ("format", Json.str (replaceFirst text "Download " "")),
          ("url", optStr (getAbsoluteUrl inst (some h)))])
      else none

/-- The `formats` array built by `/api/video/:videoId`. -/
def extractFormats (inst : String) (anchors : List AnchorElement) : List Json :=
  anchors.filterMap (mkFormat inst)

/-- The watch page, as seen by the fixed selector set of the video
handler. -/
structure VideoPage where
  downloadAnchors : List AnchorElement
  videoTitleRaw : Option String
  channelNameRaw : Option String
  viewsStatRaw : Option String
  agoStatRaw : Option String
  descriptionRaw : Option String

/-- Hex digit (upper case), for percent-encoding. -/
def hexDigitChar (n : Nat) : Char :=
  if n < 10 then Char.ofNat (48 + n) else Char.ofNat (55 + n)

/-- The UTF-8 bytes of a character. -/
def utf8Bytes (c : Char) : List Nat :=
  let n := c.toNat
  if n < 128 then [n]
  else if n < 2048 then [192 + n / 64, 128 + n % 64]
  else if n < 65536 then [224 + n / 4096, 128 + n / 64 % 64, 128 + n % 64]
  else [240 + n / 262144, 128 + n / 4096 % 64, 128 + n / 64 % 64, 128 + n % 64]

/-- The characters `encodeURIComponent` leaves unescaped:
letters, digits and `- _ . ! ~ * ' ( )`. -/
def isUnescapedURI (c : Char) : Bool :=
  c.isAlpha || c.isDigit || c == Char.ofNat 45 || c == Char.ofNat 95 ||
  c == Char.ofNat 46 || c == Char.ofNat 33 || c == Char.ofNat 126 ||
  c == Char.ofNat 42 || c == Char.ofNat 39 || c == Char.ofNat 40 ||
  c == Char.ofNat 41

/-- JavaScript `encodeURIComponent`. -/
def encodeURIComponentJS (s : String) : String :=
  ofChars (s.data.flatMap (fun c =>
    if isUnescapedURI c then [c]
    else (utf8Bytes c).flatMap (fun b =>
      [Char.ofNat 37, hexDigitChar (b / 16), hexDigitChar (b % 16)])))

/-- The upstream watch URL the video handler builds and also returns as
`invidiousWatchUrl`. -/
def watchUrl (inst videoId : String) : String :=
  inst ++ "/watch?v=" ++ encodeURIComponentJS videoId

/-- The `videoInfo` object built by `/api/video/:videoId`. -/
def extractVideoInfo (inst videoId : String) (page : VideoPage) : Json :=
  Json.obj [
    ("title", optStr (getText page.videoTitleRaw)),
    ("author", optStr (getText page.channelNameRaw)),
    ("views", optStr (getText page.viewsStatRaw)),
    ("uploadedAt", optStr (getText page.agoStatRaw)),
    ("description", optStr (getText page.descriptionRaw)),
    ("formats", Json.arr (extractFormats inst page.downloadAnchors)),
    ("invidiousWatchUrl", Json.str (watchUrl inst videoId))]

/-- One thumbnail record of an Invidious API search item. -/
structure Thumb where
  url : Option String

/-- One item of the JSON array the Invidious `/api/v1/search` API returns,
in the typical structure the version-1 search handler assumes (its comment:
the response is already JSON).  Items are objects; a field the upstream
omits is `none`. -/
structure ApiItem where
  type : Option String
  title : Option String
  videoId : Option String
  videoThumbnails : Option (List Thumb)
  thumbnail : Option String
  author : Option String
  viewCount : Option Nat
  publishedText : Option String

/-- Digits of a natural number, most significant first (fuel-driven so the
kernel can evaluate it). -/
def natDigitsAux : Nat → Nat → List Char
  | 0, _ => []
  | _ + 1, 0 => []
  | fuel + 1, n + 1 =>
    natDigitsAux fuel ((n + 1) / 10) ++ [Char.ofNat (48 + (n + 1) % 10)]

/-- Decimal digits of `n`. -/
def natDigits (n : Nat) : List Char :=
  if n = 0 then [Char.ofNat 48] else natDigitsAux (n + 1) n

/-- Insert a comma after every third character of a reversed digit list. -/
def group3 : List Char → List Char
  | d1 :: d2 :: d3 :: rest@(_ :: _) => d1 :: d2 :: d3 :: Char.ofNat 44 :: group3 rest
  | l => l

/-- JavaScript `n.toLocaleString()` for a natural number, modelled with
en-US style comma grouping. -/
def toLocaleStr (n : Nat) : String :=
  ofChars ((group3 (natDigits n).reverse).reverse)

/-- `item.viewCount ? viewCount.toLocaleString() + ' views' : null`
(a zero or absent count is falsy). -/
def viewsText : Option Nat → Option String
  | none => none
  | some n => if n = 0 then none else some (toLocaleStr n ++ " views")

/-- A field that is dropped from the serialized object when the value is
`undefined`. -/
def optField (k : String) (v : Option String) : List (String × Json) :=
  match v with
  | none => []
  | some s => [(k, Json.str s)]

/-- The VideoSummary object the version-1 search handler builds from a
`type === 'video'` item, field by field:
`videoThumbnails?.[0]?.url || thumbnail` run through `getAbsoluteUrl`, the
view count rendered as a localized string, and the watch URL rebuilt from
the videoId (a missing videoId interpolates as the string `undefined`). -/
def mkApiSummary (inst : String) (i : ApiItem) : Json :=
  Json.obj (
    optField "title" i.title ++
    optField "videoId" i.videoId ++
    [("thumbnail", optStr (getAbsoluteUrl inst
        (jsOr ((i.videoThumbnails.bind List.head?).bind Thumb.url) i.thumbnail)))] ++
    optField "author" i.author ++
    [("views", optStr (viewsText i.viewCount))] ++
    optField "uploadedAt" i.publishedText ++
    [("url", optStr (getAbsoluteUrl inst
        (some ("/watch?v=" ++ i.videoId.getD "undefined"))))])

/-- `item => item.type === 'video' ? summary : null`. -/
def apiMapStep (inst : String) (i : ApiItem) : Option Json :=
  if i.type == some "video" then some (mkApiSummary inst i) else none

/-- `data.map(item => ...).filter(item => item !== null)` of the version-1
search handler. -/
def searchApiExtract (inst : String) (items : List ApiItem) : List Json :=
  (items.map (apiMapStep inst)).filterMap id

/-- `/api/popular` (both versions): answer 500 with a generic payload when
the awaited fetch rejects, otherwise 200 with the extracted array. -/
def popularHandler (inst : String) (fetch : Except String (List VideoElement)) :
    Response :=
  match fetch with
  | Except.error _ => errorResponse "Failed to fetch popular videos"
  | Except.ok doc => ⟨200, Json.arr (extractPopular inst doc)⟩

/-- `/api/search` version 1 (JSON API): 400 when `q` is falsy (before any
fetch), else 500 on a rejected fetch and 200 with the mapped array on
success. -/
def searchHandlerV1 (inst : String) (q : Option String)
    (fetch : Except String (List ApiItem)) : Response :=
  if !(strTruthy q) then q400Response
  else
    match fetch with
    | Except.error _ =>
      errorResponse "Failed to fetch search results from Invidious API"
    | Except.ok items => ⟨200, Json.arr (searchApiExtract inst items)⟩

/-- `/api/search` version 2 (markup): 400 when `q` is falsy (before any
fetch), else 500 on a rejected fetch and 200 with the scraped array on
success. -/
def searchHandlerV2 (inst : String) (q : Option String)
    (fetch : Except String (List VideoElement)) : Response :=
  if !(strTruthy q) then q400Response
  else
    match fetch with
    | Except.error _ => errorResponse "Failed to fetch search results"
    | Except.ok doc => ⟨200, Json.arr (extractSearchMarkup inst doc)⟩

/-- `/api/video/:videoId` (both versions): 400 when the path parameter is
falsy, else 500 on a rejected fetch and 200 with `videoInfo` on success. -/
def videoHandler (inst videoId : String) (fetch : Except String VideoPage) :
    Response :=
  if videoId = "" then ⟨400, Json.obj [("error", Json.str "Video ID is required.")]⟩
  else
    match fetch with
    | Except.error _ => errorResponse "Failed to fetch video information"
    | Except.ok page => ⟨200, extractVideoInfo inst videoId page⟩

/-- `/api/comments/:videoId` (both versions): 400 when the path parameter is
falsy, else 500 on a rejected fetch and 200 with the comments array on
success. -/
def commentsHandler (_inst videoId : String)
    (fetch : Except String (List CommentElement)) : Response :=
  if videoId = "" then ⟨400, Json.obj [("error", Json.str "Video ID is required.")]⟩
  else
    match fetch with
    | Except.error _ => errorResponse "Failed to fetch comments"
    | Except.ok doc => ⟨200, Json.arr (extractComments doc)⟩

/-- `/health` (both versions): `res.status(200).send('OK')`; the handler
takes no fetch argument because it performs no upstream call. -/
def healthHandler (_req : Unit) : Nat × String := (200, "OK")

/-- First field of an object with key `k` (JavaScript property access on the
serialized object). -/
def lookupField (k : String) : List (String × Json) → Option Json
  | [] => none
  | (k2, v) :: rest => if k2 == k then some v else lookupField k rest

/-- Whether a JSON value is `null`. -/
def isNullJ : Json → Bool
  | Json.null => true
  | _ => false

/-- Whether a returned item is an object carrying a non-null `videoId`. -/
def hasVideoIdB : Json → Bool
  | Json.obj fields =>
    match lookupField "videoId" fields with
    | some v => !(isNullJ v)
    | none => false
  | _ => false

/-- Whether a formats entry is an object with non-empty `format` and `url`
strings. -/
def formatEntryOk (j : Json) : Bool :=
  match j with
  | Json.obj fields =>
    match lookupField "format" fields, lookupField "url" fields with
    | some (Json.str f), some (Json.str u) => !(f == "") && !(u == "")
    | _, _ => false
  | _ => false

/-! ## Supporting lemmas -/

/-- Two strings with the same characters are equal. -/
theorem str_ext : ∀ {a b : String}, a.data = b.data → a = b
  | ⟨_⟩, ⟨_⟩, rfl => rfl

/-- The head of `dropWhile p l` falsifies `p`. -/
theorem head_dropWhile_not {p : Char → Bool} :
    ∀ {l : List Char} {c : Char}, (l.dropWhile p).head? = some c → p c = false := by
  intro l
  induction l with
  | nil => intro c h; simp [List.dropWhile] at h
  | cons a t ih =>
    intro c h
    rw [List.dropWhile_cons] at h
    by_cases hp : p a = true
    · rw [if_pos hp] at h
      exact ih h
    · rw [if_neg hp] at h
      injection h with h
      subst h
      cases hpa : p a with
      | false => rfl
      | true => exact absurd hpa hp

/-- The last character of a trimmed list is not whitespace. -/
theorem trimL_getLast_not_ws {l : List Char} {c : Char}
    (h : (trimL l).getLast? = some c) : c.isWhitespace = false := by
  unfold trimL at h
  rw [List.getLast?_reverse] at h
  exact head_dropWhile_not h

/-- Trimming never produces a string with a trailing blank, in particular
never the nine characters of the pattern the formats extraction removes. -/
theorem trimJS_ne_download (s : String) : trimJS s ≠ "Download " := by
  intro h
  have hd : trimL s.data = ("Download ").data := congrArg String.data h
  have hl : (trimL s.data).getLast? = some (Char.ofNat 32) := by
    rw [hd]; decide
  exact absurd (trimL_getLast_not_ws hl) (by decide)

/-- A prefix of `a` is also a prefix of `a ++ b`. -/
theorem prefixB_append {p : List Char} :
    ∀ {a : List Char} (b : List Char), prefixB p a = true → prefixB p (a ++ b) = true := by
  induction p with
  | nil => intro a b _; rfl
  | cons c cs ih =>
    intro a b h
    cases a with
    | nil => simp [prefixB] at h
    | cons d ds =>
      simp only [List.cons_append]
      simp [prefixB] at h ⊢
      exact ⟨h.1, @ih ds b h.2⟩

/-- A prefix is no longer than the list. -/
theorem prefixB_length_le {p : List Char} :
    ∀ {a : List Char}, prefixB p a = true → p.length ≤ a.length := by
  induction p with
  | nil => intro a _; simp
  | cons c cs ih =>
    intro a h
    cases a with
    | nil => simp [prefixB] at h
    | cons d ds =>
      simp [prefixB] at h
      simpa using ih h.2

/-- A prefix at least as long as the list is the whole list. -/
theorem prefixB_all {p : List Char} :
    ∀ {a : List Char}, prefixB p a = true → a.length ≤ p.length → a = p := by
  induction p with
  | nil =>
    intro a _ hlen
    cases a with
    | nil => rfl
    | cons d ds => simp at hlen
  | cons c cs ih =>
    intro a h hlen
    cases a with
    | nil => simp [prefixB] at h
    | cons d ds =>
      simp [prefixB] at h
      have hds := ih h.2 (by simpa using hlen)
      rw [hds, h.1]

/-- Deleting the first occurrence of a pattern from a non-empty list that is
not the pattern itself leaves a non-empty list. -/
theorem replaceFirstL_ne_nil {pat l : List Char} (hne : l ≠ []) (hneq : l ≠ pat) :
    replaceFirstL pat [] l ≠ [] := by
  cases l with
  | nil => exact absurd rfl hne
  | cons c t =>
    by_cases hp : prefixB pat (c :: t) = true
    · simp only [replaceFirstL, if_pos hp, List.nil_append]
      intro hdrop
      have hlen : (c :: t).length ≤ pat.length := by
        simpa using List.drop_eq_nil_iff.mp hdrop
      exact hneq (prefixB_all hp hlen)
    · simp only [replaceFirstL, if_neg hp]
      exact List.cons_ne_nil _ _

/-- Deleting the pattern from a trimmed non-empty text leaves a non-empty
format label. -/
theorem replaceFirst_trim_ne (raw : String) (hne : trimJS raw ≠ "") :
    replaceFirst (trimJS raw) "Download " "" ≠ "" := by
  intro hemp
  exact @replaceFirstL_ne_nil (("Download ").data) ((trimJS raw).data)
    (fun hh => hne (str_ext hh))
    (fun hh => trimJS_ne_download raw (str_ext hh))
    (congrArg String.data hemp)

/-- `startsWith` is stable under appending on the right. -/
theorem startsWithJS_append {s : String} (t : String) {pre : String}
    (h : startsWithJS s pre = true) : startsWithJS (s ++ t) pre = true := by
  show prefixB pre.data (s.data ++ t.data) = true
  exact prefixB_append _ h

/-- A string with an http(s) scheme keeps it when extended on the right. -/
theorem hasHttpScheme_append {s : String} (t : String) (h : hasHttpScheme s = true) :
    hasHttpScheme (s ++ t) = true := by
  unfold hasHttpScheme at h ⊢
  simp only [Bool.or_eq_true] at h ⊢
  rcases h with h1 | h1
  · exact Or.inl (startsWithJS_append t h1)
  · exact Or.inr (startsWithJS_append t h1)

/-- A string with an http(s) scheme is non-empty. -/
theorem hasHttpScheme_ne_empty {s : String} (h : hasHttpScheme s = true) : s ≠ "" := by
  intro he
  subst he
  exact absurd h (by decide)

/-- `getAbsoluteUrl` on a scheme-free path yields the slash-adjusted join. -/
theorem getAbs_join (inst : String) {p : String} (h1 : hasHttpScheme p = false)
    (h3 : p ≠ "") :
    getAbsoluteUrl inst (some p) =
      some (inst ++ (if startsWithJS p "/" then "" else "/") ++ p) := by
  simp [getAbsoluteUrl, h1, h3]

/-- `getAbsoluteUrl` on an http(s) input returns it unchanged. -/
theorem getAbs_scheme (inst : String) {p : String} (h : hasHttpScheme p = true) :
    getAbsoluteUrl inst (some p) = some p := by
  simp [getAbsoluteUrl, hasHttpScheme_ne_empty h, h]

/-- `getAbsoluteUrl` of a truthy path is a non-empty string. -/
theorem getAbsoluteUrl_truthy (inst : String) {p : String} (hne : p ≠ "") :
    ∃ u, getAbsoluteUrl inst (some p) = some u ∧ u ≠ "" := by
  by_cases hs : hasHttpScheme p = true
  · exact ⟨p, getAbs_scheme inst hs, hne⟩
  · refine ⟨inst ++ (if startsWithJS p "/" then "" else "/") ++ p,
      getAbs_join inst (Bool.not_eq_true _ ▸ hs) hne, ?_⟩
    intro hemp
    have hdata : (inst ++ (if startsWithJS p "/" then "" else "/")).data ++ p.data = [] :=
      congrArg String.data hemp
    exact hne (str_ext (List.append_eq_nil.mp hdata).2)

/-! ## Claim theorems -/

/-- Claim C10: for every falsy input (`null`, `undefined`, or the empty
string), `getAbsoluteUrl` returns `null` rather than a string or an
exception, for any configured instance origin. -/
theorem c10_falsy_yields_null (inst : String) :
    getAbsoluteUrl inst none = none ∧ getAbsoluteUrl inst (some "") = none :=
  ⟨rfl, rfl⟩

/-- Claim C9: `GET /health` always responds with status 200 and the plain
body `"OK"`; the handler takes no fetch argument, so its result cannot
depend on any upstream state. -/
theorem c9_health_constant (req : Unit) : healthHandler req = (200, "OK") := rfl

/-- Claim C8 (code bug): version 2 selects the upstream origin from the
`INVIDIOUS_INSTANCE` environment setting with the fixed public default, and
the port from `PORT` with default 3000, as the claim states; but version 1
ignores the environment entirely and always uses the literal default,
contradicting its own comment that the variable can override it. -/
theorem c8_config_selection :
    INVIDIOUS_INSTANCE_v1 (some "https://other.example") = "https://lekker.gay"
    ∧ INVIDIOUS_INSTANCE_v1 (some "https://other.example") ≠ "https://other.example"
    ∧ INVIDIOUS_INSTANCE_v2 (some "https://other.example") = "https://other.example"
    ∧ INVIDIOUS_INSTANCE_v2 none = "https://lekker.gay"
    ∧ PORT none = Sum.inl 3000
    ∧ PORT (some "8080") = Sum.inr "8080" := by
  refine ⟨rfl, by decide, by decide, rfl, rfl, by decide⟩

/-- Claim C4 counterexample: the input `ftp://example.com/a` carries a URL
scheme, yet `getAbsoluteUrl` does not return it unchanged: it treats it as
relative and prefixes the origin. -/
theorem c4_counterexample :
    getAbsoluteUrl "https://lekker.gay" (some "ftp://example.com/a")
      = some "https://lekker.gay/ftp://example.com/a"
    ∧ getAbsoluteUrl "https://lekker.gay" (some "ftp://example.com/a")
      ≠ some "ftp://example.com/a" := by
  exact ⟨by decide, by decide⟩

/-- Claim C4 (amended): `getAbsoluteUrl` returns its input unchanged exactly
when it starts with `http://` or `https://`; every other non-empty input —
including ones carrying a different URL scheme — is prefixed with the
configured instance origin, with a slash inserted when the path lacks a
leading one. -/
theorem c4_scheme_prefixing (inst p : String) :
    (hasHttpScheme p = true → getAbsoluteUrl inst (some p) = some p)
    ∧ (hasHttpScheme p = false → p ≠ "" →
        getAbsoluteUrl inst (some p) =
          some (inst ++ (if startsWithJS p "/" then "" else "/") ++ p)) :=
  ⟨fun h => getAbs_scheme inst h, fun h1 h3 => getAbs_join inst h1 h3⟩

/-- Claim C4 witness: both branches of the amended claim at concrete
inputs. -/
theorem c4_scheme_prefixing_witness :
    getAbsoluteUrl "https://lekker.gay" (some "https://a.example/x")
      = some "https://a.example/x"
    ∧ getAbsoluteUrl "https://lekker.gay" (some "watch")
      = some ("https://lekker.gay" ++
          (if startsWithJS "watch" "/" then "" else "/") ++ "watch") :=
  ⟨(c4_scheme_prefixing "https://lekker.gay" "https://a.example/x").1 (by decide),
   (c4_scheme_prefixing "https://lekker.gay" "watch").2 (by decide) (by decide)⟩

/-- Claim C2 counterexample: with the default configured origin, the
relative path `//cdn.example.com/a.png` is joined with a doubled slash at
the boundary that is not deduplicated; a trailing-slash configured origin
likewise yields a doubled slash. -/
theorem c2_counterexample :
    getAbsoluteUrl (INVIDIOUS_INSTANCE_v2 none) (some "//cdn.example.com/a.png")
      = some "https://lekker.gay//cdn.example.com/a.png"
    ∧ containsSubJS "https://lekker.gay//cdn.example.com/a.png" "gay//cdn" = true
    ∧ getAbsoluteUrl (INVIDIOUS_INSTANCE_v2 (some "https://lekker.gay/")) (some "/watch")
      = some "https://lekker.gay//watch" := by
  exact ⟨by decide, by decide, by decide⟩

/-- Claim C2 (amended): `getAbsoluteUrl` leaves `http://`/`https://` inputs
unchanged, and applying it twice equals applying it once whenever the
configured origin itself carries an http(s) scheme; for a relative path it
inserts a slash exactly when the path has no leading one, so the join has
exactly one boundary slash provided the origin has no trailing slash and the
path no doubled leading slash — a doubled slash is never deduplicated. -/
theorem c2_join_idempotence :
    (∀ inst p, hasHttpScheme p = true → getAbsoluteUrl inst (some p) = some p)
    ∧ (∀ inst path, hasHttpScheme inst = true →
        getAbsoluteUrl inst (getAbsoluteUrl inst path) = getAbsoluteUrl inst path)
    ∧ (∀ inst p, hasHttpScheme p = false → startsWithJS p "/" = false → p ≠ "" →
        getAbsoluteUrl inst (some p) = some (inst ++ "/" ++ p))
    ∧ (∀ inst p, hasHttpScheme p = false → startsWithJS p "/" = true →
        getAbsoluteUrl inst (some p) = some (inst ++ p)) := by
  refine ⟨fun inst p h => getAbs_scheme inst h, ?_, ?_, ?_⟩
  · intro inst path h
    match path with
    | none => rfl
    | some p =>
      by_cases hp : p = ""
      · subst hp; rfl
      · by_cases hs : hasHttpScheme p = true
        · rw [getAbs_scheme inst hs, getAbs_scheme inst hs]
        · rw [getAbs_join inst (Bool.not_eq_true _ ▸ hs) hp]
          exact getAbs_scheme inst
            (hasHttpScheme_append p
              (hasHttpScheme_append (if startsWithJS p "/" then "" else "/") h))
  · intro inst p h1 h2 h3
    rw [getAbs_join inst h1 h3, h2]
    rfl
  · intro inst p h1 h2
    have h3 : p ≠ "" := by
      intro he; subst he; exact absurd h2 (by decide)
    rw [getAbs_join inst h1 h3, h2]
    exact congrArg some (str_ext (by simp [List.append_nil]))

/-- Claim C2 witness: each part of the amended claim at a concrete input. -/
theorem c2_join_idempotence_witness :
    getAbsoluteUrl "https://lekker.gay" (some "https://a.example/x")
      = some "https://a.example/x"
    ∧ getAbsoluteUrl "https://lekker.gay"
        (getAbsoluteUrl "https://lekker.gay" (some "watch"))
      = getAbsoluteUrl "https://lekker.gay" (some "watch")
    ∧ getAbsoluteUrl "https://lekker.gay" (some "watch")
      = some ("https://lekker.gay" ++ "/" ++ "watch")
    ∧ getAbsoluteUrl "https://lekker.gay" (some "/watch")
      = some ("https://lekker.gay" ++ "/watch") :=
  ⟨c2_join_idempotence.1 "https://lekker.gay" "https://a.example/x" (by decide),
   c2_join_idempotence.2.1 "https://lekker.gay" (some "watch") (by decide),
   c2_join_idempotence.2.2.1 "https://lekker.gay" "watch" (by decide) (by decide) (by decide),
   c2_join_idempotence.2.2.2 "https://lekker.gay" "/watch" (by decide) (by decide)⟩

/-- Claim C1 counterexample: `/api/comments/:videoId` is a list endpoint,
yet the item it returns for a source comment carries no `videoId` at all —
comments are mapped one-to-one with no identifying field and no dropping. -/
theorem c1_counterexample :
    ¬ ((extractComments
        [⟨some "alice", some "nice video", some "1 hour ago", some "5"⟩]).all
          hasVideoIdB = true) := by
  decide

/-- Claim C1 (amended): for `/api/popular` and the markup `/api/search`,
every returned item has a non-null `videoId` and items whose extracted
videoId is falsy are skipped without affecting siblings, so the output count
is at most the source count; the JSON-API `/api/search` also returns at most
one item per source item (its `videoId` is copied verbatim and may be
absent); `/api/comments` returns exactly one item per source comment, and
those items carry no `videoId` field at all. -/
theorem c1_video_id_presence (inst : String) (pdoc sdoc : List VideoElement)
    (adoc : List ApiItem) (cdoc : List CommentElement) :
    ((extractPopular inst pdoc).all hasVideoIdB = true
      ∧ (extractPopular inst pdoc).length ≤ pdoc.length)
    ∧ ((extractSearchMarkup inst sdoc).all hasVideoIdB = true
      ∧ (extractSearchMarkup inst sdoc).length ≤ sdoc.length)
    ∧ (searchApiExtract inst adoc).length ≤ adoc.length
    ∧ ((extractComments cdoc).all (fun j => !(hasVideoIdB j)) = true
      ∧ (extractComments cdoc).length = cdoc.length) := by
  refine ⟨⟨?_, List.length_filterMap_le _ _⟩, ⟨?_, List.length_filterMap_le _ _⟩, ?_, ?_, ?_⟩
  · apply List.all_eq_true.mpr
    intro j hj
    rcases List.mem_filterMap.mp hj with ⟨e, _, heq⟩
    rcases hv : elementVideoId e with _ | vid
    · simp [mkVideoSummary, hv] at heq
    · by_cases hz : vid = ""
      · simp [mkVideoSummary, hv, hz] at heq
      · simp [mkVideoSummary, hv, hz] at heq
        rw [← heq]
        rfl
  · apply List.all_eq_true.mpr
    intro j hj
    rcases List.mem_filterMap.mp hj with ⟨e, _, heq⟩
    rcases hv : elementVideoId e with _ | vid
    · simp [mkVideoSummary, hv] at heq
    · by_cases hz : vid = ""
      · simp [mkVideoSummary, hv, hz] at heq
      · simp [mkVideoSummary, hv, hz] at heq
        rw [← heq]
        rfl
  · calc (searchApiExtract inst adoc).length
        ≤ (adoc.map (apiMapStep inst)).length := List.length_filterMap_le _ _
      _ = adoc.length := List.length_map _ _
  · apply List.all_eq_true.mpr
    intro j hj
    rcases List.mem_map.mp hj with ⟨e, _, heq⟩
    rw [← heq]
    rfl
  · simp [extractComments]

/-- Claim C7: the structured (JSON API) search extraction keeps exactly the
items whose `type` is `'video'`, dropping every other item entirely, and
maps each kept item field-by-field through `mkApiSummary` onto the
VideoSummary shape. -/
theorem c7_api_filter_map (inst : String) (items : List ApiItem) :
    searchApiExtract inst items =
      (items.filter (fun i => i.type == some "video")).map (mkApiSummary inst) := by
  induction items with
  | nil => rfl
  | cons i t ih =>
    by_cases h : (i.type == some "video") = true
    · simp only [searchApiExtract, List.map_cons, List.filterMap_cons] at ih ⊢
      simp [apiMapStep, h, List.filter_cons, ih]
    · simp only [searchApiExtract, List.map_cons, List.filterMap_cons] at ih ⊢
      simp [apiMapStep, h, List.filter_cons, ih]

/-- Claim C5 counterexample: a present but empty `q` (the request
`/api/search?q=`) is answered with 400 even though the parameter is not
missing, because the handler tests JavaScript truthiness, not presence. -/
theorem c5_counterexample :
    searchHandlerV2 "https://lekker.gay" (some "") (Except.ok []) = q400Response
    ∧ (some "" : Option String) ≠ none :=
  ⟨rfl, by decide⟩

/-- Claim C5 (amended): both search handlers answer 400 with the error body
exactly when `q` is missing or empty, and the 400 result is the same for
every fetch outcome, so no upstream request is consulted; for truthy `q`
they answer 200 with an array on success and 500 on upstream error. -/
theorem c5_q_validation :
    (∀ inst (f : Except String (List VideoElement)),
      searchHandlerV2 inst none f = q400Response)
    ∧ (∀ inst (f : Except String (List VideoElement)),
      searchHandlerV2 inst (some "") f = q400Response)
    ∧ (∀ inst q doc, strTruthy q = true →
      searchHandlerV2 inst q (Except.ok doc)
        = ⟨200, Json.arr (extractSearchMarkup inst doc)⟩)
    ∧ (∀ inst q e, strTruthy q = true →
      searchHandlerV2 inst q (Except.error e)
        = errorResponse "Failed to fetch search results")
    ∧ (∀ inst (f : Except String (List ApiItem)),
      searchHandlerV1 inst none f = q400Response)
    ∧ (∀ inst (f : Except String (List ApiItem)),
      searchHandlerV1 inst (some "") f = q400Response)
    ∧ (∀ inst q items, strTruthy q = true →
      searchHandlerV1 inst q (Except.ok items)
        = ⟨200, Json.arr (searchApiExtract inst items)⟩)
    ∧ (∀ inst q e, strTruthy q = true →
      searchHandlerV1 inst q (Except.error e)
        = errorResponse "Failed to fetch search results from Invidious API") := by
  refine ⟨fun inst f => rfl, fun inst f => rfl, ?_, ?_, fun inst f => rfl,
    fun inst f => rfl, ?_, ?_⟩
  · intro inst q doc hq
    simp [searchHandlerV2, hq]
  · intro inst q e hq
    simp [searchHandlerV2, hq]
  · intro inst q items hq
    simp [searchHandlerV1, hq]
  · intro inst q e hq
    simp [searchHandlerV1, hq]

/-- Claim C5 witness: the amended claim at the concrete query `lofi`. -/
theorem c5_q_validation_witness :
    searchHandlerV2 "https://lekker.gay" (some "lofi") (Except.ok [])
      = ⟨200, Json.arr (extractSearchMarkup "https://lekker.gay" [])⟩
    ∧ searchHandlerV1 "https://lekker.gay" (some "lofi") (Except.error "timeout")
      = errorResponse "Failed to fetch search results from Invidious API" :=
  ⟨c5_q_validation.2.2.1 "https://lekker.gay" (some "lofi") [] (by decide),
   c5_q_validation.2.2.2.2.2.2.2 "https://lekker.gay" (some "lofi") "timeout" (by decide)⟩

/-- Claim C3: every fetching handler is a total function of the awaited
fetch outcome: a rejected fetch (network error, non-2xx, unparseable body)
is answered with status 500 and a generic JSON error payload that does not
depend on the error, and a resolved fetch with status 200 and the mapped
array or object — no outcome is left unhandled. -/
theorem c3_catch_all (inst vid : String) (q : Option String) (e : String)
    (pdoc sdoc : List VideoElement) (adoc : List ApiItem) (page : VideoPage)
    (cdoc : List CommentElement) (hq : strTruthy q = true) (hvid : vid ≠ "") :
    popularHandler inst (Except.error e) = errorResponse "Failed to fetch popular videos"
    ∧ popularHandler inst (Except.ok pdoc) = ⟨200, Json.arr (extractPopular inst pdoc)⟩
    ∧ searchHandlerV1 inst q (Except.error e)
        = errorResponse "Failed to fetch search results from Invidious API"
    ∧ searchHandlerV1 inst q (Except.ok adoc)
        = ⟨200, Json.arr (searchApiExtract inst adoc)⟩
    ∧ searchHandlerV2 inst q (Except.error e)
        = errorResponse "Failed to fetch search results"
    ∧ searchHandlerV2 inst q (Except.ok sdoc)
        = ⟨200, Json.arr (extractSearchMarkup inst sdoc)⟩
    ∧ videoHandler inst vid (Except.error e)
        = errorResponse "Failed to fetch video information"
    ∧ videoHandler inst vid (Except.ok page)
        = ⟨200, extractVideoInfo inst vid page⟩
    ∧ commentsHandler inst vid (Except.error e)
        = errorResponse "Failed to fetch comments"
    ∧ commentsHandler inst vid (Except.ok cdoc)
        = ⟨200, Json.arr (extractComments cdoc)⟩ := by
  refine ⟨rfl, rfl, ?_, ?_, ?_, ?_, ?_, ?_, ?_, ?_⟩ <;>
    simp [searchHandlerV1, searchHandlerV2, videoHandler, commentsHandler, hq, hvid]

/-- Claim C3 witness: the catch-all behaviour at concrete inputs. -/
theorem c3_catch_all_witness :
    popularHandler "https://lekker.gay" (Except.error "boom")
      = errorResponse "Failed to fetch popular videos"
    ∧ videoHandler "https://lekker.gay" "abc123" (Except.error "boom")
      = errorResponse "Failed to fetch video information" := by
  have h := c3_catch_all "https://lekker.gay" "abc123" (some "lofi") "boom" [] [] []
    ⟨[], none, none, none, none, none⟩ [] (by decide) (by decide)
  exact ⟨h.1, h.2.2.2.2.2.2.1⟩

/-- Claim C6: the object a successful `/api/video/:videoId` request returns
holds a `formats` array each of whose entries has a non-empty `format`
string and a non-empty `url` string, for every upstream document. -/
theorem c6_formats_nonempty (inst vid : String) (page : VideoPage) :
    (∃ fields, extractVideoInfo inst vid page = Json.obj fields
      ∧ lookupField "formats" fields
          = some (Json.arr (extractFormats inst page.downloadAnchors)))
    ∧ (extractFormats inst page.downloadAnchors).all formatEntryOk = true := by
  constructor
  · exact ⟨_, rfl, rfl⟩
  · apply List.all_eq_true.mpr
    intro j hj
    rcases List.mem_filterMap.mp hj with ⟨a, _, heq⟩
    rcases ha : a.href with _ | h
    · simp [mkFormat, getAttr, ha] at heq
    · by_cases hh : h = ""
      · simp [mkFormat, getAttr, ha, hh] at heq
      · by_cases ht : trimJS a.textRaw = ""
        · simp [mkFormat, getAttr, ha, hh, ht] at heq
        · by_cases hc : containsSubJS (trimJS a.textRaw) "Download" = true
          · rcases getAbsoluteUrl_truthy inst hh with ⟨u, hu, hune⟩
            simp [mkFormat, getAttr, ha, hh, ht, hc, hu] at heq
            rw [← heq]
            show (!(replaceFirst (trimJS a.textRaw) "Download " "" == "")
              && !(u == "")) = true
            simp [Bool.and_eq_true, Bool.not_eq_true']
            exact ⟨replaceFirst_trim_ne a.textRaw ht, hune⟩
          · simp [mkFormat, getAttr, ha, hh, ht, hc] at heq

end JpRelay
